import Mathlib

/-!
Verification development for the Kung-Fu-Chess engine (CTD25).

The definitions below are a shallow embedding of the Python sources under
`src/It1_interfaces/`: `Moves.py`, `State.py`, `Piece.py`, `Game.py` and
`PieceFactory.py`.  Machine times are Python integers, modelled as `Int`.
Two collaborator modules of the repository are not present under `src/`
(`Command.py`, `Physics.py`); the spec describes both, and the definitions
that stand in for them are marked `Modelled from the spec` below.
-/

namespace KungFuChess

/-- A board cell, `(row, col)`, as used throughout `Game.py`. -/
abbrev Cell := Int × Int

/-- Modelled from the spec: `Command.py` is not under `src/`.  Spec §3 gives
the shape `(timestamp ms, piece_id, kind, optional source cell, optional
destination cell)`; callers in `Game.py` construct commands via
`Command(timestamp, piece_id, type, params)`, `Command.create_move_command`
and `Command.create_idle_command`, and `Piece.py` reads `cmd.type`,
`cmd.piece_id`, `cmd.get_source_cell()` and `cmd.get_target_cell()`. -/
structure Command where
  timestamp : Int
  piece_id : String
  type : String
  source : Option Cell
  target : Option Cell
deriving DecidableEq, Repr

/-- Modelled from the spec: `Command.create_move_command(now, id, from, to)`
carries the move's source and destination cells. -/
def Command.create_move_command (t : Int) (pid : String) (src dst : Cell) : Command :=
  { timestamp := t, piece_id := pid, type := "Move", source := some src, target := some dst }

/-- Modelled from the spec: `Command.create_idle_command(now, id)` carries no
cells, mirroring `Command(timestamp=now, piece_id=pid, type="idle", params=[])`
as built in `Game._resolve_collisions`. -/
def Command.create_idle_command (t : Int) (pid : String) : Command :=
  { timestamp := t, piece_id := pid, type := "idle", source := none, target := none }

/-- Modelled from the spec: `Physics.py` is not under `src/`.  The fields are
exactly the ones the sources read and write (`Game._resolve_collisions`,
`Game._is_path_blocked`, `Game._select_piece`, `State.py`): the occupied cell,
the in-flight destination cell, and the in-flight motion flag. -/
structure Physics where
  current_cell : Cell
  target_cell : Cell
  is_moving : Bool
deriving DecidableEq, Repr

/-- Modelled from the spec: `Game._resolve_collisions` groups pieces by
`physics.get_pos()`; spec §4.6 step 1 says pieces are grouped by their
current occupied cell. -/
def Physics.get_pos (ph : Physics) : Cell := ph.current_cell

/-- Modelled from the spec: `physics.reset(cmd)` restarts the movement
collaborator from the command (spec §4.2 `enter`): a command carrying source
and destination cells puts the piece in flight from the source towards the
destination; any other command (idle/complete/timeout) settles the piece on
its current cell. -/
def Physics.reset (ph : Physics) (cmd : Command) : Physics :=
  match cmd.source, cmd.target with
  | some s, some t => { current_cell := s, target_cell := t, is_moving := true }
  | _, _ => { ph with target_cell := ph.current_cell, is_moving := false }

/-- Embeds the `Moves` object of `Moves.py`: board dimensions plus the parsed
list of `(dr, dc)` move deltas. -/
structure Moves where
  board_height : Int
  board_width : Int
  move_deltas : List (Int × Int)
deriving DecidableEq, Repr

/-- Embeds `State` of `State.py` restricted to the engine fields (graphics is
an external collaborator, spec §1).  `transitions` maps an event kind to the
name of the target state; the per-piece state graph (see `StateGraph`) maps
that name to the target's data, mirroring how the wired `State` objects of
`PieceFactory.create_piece` resolve a transition to a same-named live state. -/
structure State where
  state : String
  is_rest_state : Bool
  rest_duration_ms : Int
  state_start_time : Int
  transitions : List (String × String)
  physics : Physics
  current_command : Option Command
  moves : Moves
deriving DecidableEq, Repr

/-- The per-state data a transition target contributes in
`State.get_state_after_command`: rest metadata and the target's own
transition table (`State.py` lines 104-107). -/
structure StateTemplate where
  is_rest_state : Bool
  rest_duration_ms : Int
  transitions : List (String × String)
deriving DecidableEq, Repr

/-- A piece's state graph: state name to template data, as wired by
`PieceFactory._setup_transitions` and cloned per piece by
`PieceFactory.create_piece`. -/
abbrev StateGraph := List (String × StateTemplate)

/-- First association for a key in a string-keyed association list
(embeds Python `dict` lookup; keys are unique in all graphs built here). -/
def lookupStr {α : Type} (l : List (String × α)) (k : String) : Option α :=
  match l with
  | [] => none
  | (k', v) :: rest => if k' = k then some v else lookupStr rest k

/-- Embeds `State.reset` (`State.py` lines 73-79): record the command, restart
the state clock at the command's timestamp, and reset the physics
collaborator.  The state name is not touched. -/
def State.reset (s : State) (cmd : Command) : State :=
  { s with current_command := some cmd,
           state_start_time := cmd.timestamp,
           physics := s.physics.reset cmd }

/-- Embeds `State.can_transition` (`State.py` lines 81-90): a rest state can
be left only once `now - state_start_time >= rest_duration_ms`; any other
state can always be left. -/
def State.can_transition (s : State) (now_ms : Int) : Bool :=
  if s.is_rest_state then
    decide (now_ms - s.state_start_time ≥ s.rest_duration_ms)
  else
    true

/-- Embeds `State.get_state_after_command` (`State.py` lines 92-138).  The
Python method returns `self` (same object) when it cannot transition or finds
no matching edge, and otherwise builds a fresh state from the transition
target's data, carries the current physics over, and resets it with the
command; `none` here stands for "returned `self`", matching the object
identity test `new_state != self.current_state` in `Piece.on_command`.
A dangling target name (impossible in graphs produced by
`PieceFactory._setup_transitions`) also stands for "no transition". -/
def State.get_state_after_command (g : StateGraph) (s : State) (cmd : Command)
    (now_ms : Int) : Option State :=
  if s.can_transition now_ms then
    match lookupStr s.transitions cmd.type with
    | none => none
    | some targetName =>
      match lookupStr g targetName with
      | none => none
      | some t =>
        some (State.reset
          { s with state := targetName,
                   is_rest_state := t.is_rest_state,
                   rest_duration_ms := t.rest_duration_ms,
                   transitions := t.transitions } cmd)
  else
    none

/-- Embeds `Piece` of `Piece.py` (lines 80-104).  `graph` is the piece's own
wired state graph (the live `State` objects built by
`PieceFactory.create_piece`), carried here as data so transitions can resolve
target names. -/
structure Piece where
  piece_id : String
  current_state : State
  piece_type : String
  color : String
  move_count : Int
  has_moved : Bool
  last_action_time : Int
  cooldown_duration : Int
  start_time : Int
  graph : StateGraph
deriving DecidableEq, Repr

/-- Embeds the colour derivation in `Piece.__init__` (`Piece.py` lines
89-94): the colour is read off the piece-id prefix. -/
def colorFromId (pid : String) : String :=
  if pid.startsWith "PW" || pid.startsWith "RW" || pid.startsWith "NW" ||
     pid.startsWith "BW" || pid.startsWith "QW" || pid.startsWith "KW" then
    "White"
  else if pid.startsWith "PB" || pid.startsWith "RB" || pid.startsWith "NB" ||
     pid.startsWith "BB" || pid.startsWith "QB" || pid.startsWith "KB" then
    "Black"
  else
    "Unknown"

/-- Embeds `Piece.__init__` (`Piece.py` lines 81-102): fresh movement
tracking, zero action clock, 2000 ms global cooldown. -/
def Piece.init (pid : String) (init_state : State) (ptype : String)
    (g : StateGraph) : Piece :=
  { piece_id := pid, current_state := init_state, piece_type := ptype,
    color := colorFromId pid, move_count := 0, has_moved := false,
    last_action_time := 0, cooldown_duration := 2000, start_time := 0,
    graph := g }

/-- Embeds the pawn double-move guard of `Piece.on_command` (`Piece.py` lines
123-134): a pawn moving with an absolute row delta of 2 is blocked once
`has_moved` is set; the guard only fires when the command carries both a
source and a target cell. -/
def pawnDoubleBlocked (p : Piece) (cmd : Command) : Bool :=
  p.piece_type == "P" && cmd.type == "Move" &&
    (match cmd.source, cmd.target with
     | some s, some t => ((t.1 - s.1).natAbs == 2) && p.has_moved
     | _, _ => false)

/-- Embeds `Piece.on_command` (`Piece.py` lines 106-155): drop commands for
other pieces; block Move/Jump during `long_rest`; drop everything during the
global cooldown; drop a pawn double move after the first move; otherwise ask
the current state for a successor, and when a transition fired swap it in,
stamp `last_action_time`, and track movement; finally reset the (possibly
new) current state's physics with the command. -/
def Piece.on_command (p : Piece) (cmd : Command) (now_ms : Int) : Piece :=
  if cmd.piece_id ≠ p.piece_id then p
  else if p.current_state.state = "long_rest" ∧ (cmd.type = "Move" ∨ cmd.type = "Jump") then p
  else if now_ms - p.last_action_time < p.cooldown_duration then p
  else if pawnDoubleBlocked p cmd then p
  else
    match p.current_state.get_state_after_command p.graph cmd now_ms with
    | some ns =>
      let p1 := { p with current_state := ns, last_action_time := now_ms }
      let p2 := if cmd.type = "Move" ∨ cmd.type = "Jump" then
                  { p1 with move_count := p1.move_count + 1, has_moved := true }
                else p1
      { p2 with current_state :=
          { p2.current_state with physics := p2.current_state.physics.reset cmd } }
    | none =>
      { p with current_state :=
          { p.current_state with physics := p.current_state.physics.reset cmd } }

/-- Embeds `Piece.reset` (`Piece.py` lines 157-164): re-initialise the clocks
and movement tracking and reset the current state with a synthetic idle
command. -/
def Piece.reset (p : Piece) (start_ms : Int) : Piece :=
  { p with start_time := start_ms,
           last_action_time := start_ms,
           move_count := 0,
           has_moved := false,
           current_state :=
             p.current_state.reset (Command.create_idle_command start_ms p.piece_id) }

/-- Embeds the per-state transition wiring of
`PieceFactory._setup_transitions` (`PieceFactory.py` lines 167-221), given
the set of state names present for a piece type: idle gets Move/Jump/Attack
edges to the matching states, move and jump complete into their rest states
(falling back to idle), rest states time out to idle, attack completes to
idle. -/
def transitionsFor (names : List String) (n : String) : List (String × String) :=
  if n = "idle" then
    (if "move" ∈ names then [("Move", "move")] else []) ++
    (if "jump" ∈ names then [("Jump", "jump")] else []) ++
    (if "attack" ∈ names then [("Attack", "attack")] else [])
  else if n = "move" then
    (if "long_rest" ∈ names then [("complete", "long_rest")]
     else if "idle" ∈ names then [("complete", "idle")] else [])
  else if n = "jump" then
    (if "short_rest" ∈ names then [("complete", "short_rest")]
     else if "idle" ∈ names then [("complete", "idle")] else [])
  else if n = "long_rest" then
    (if "idle" ∈ names then [("timeout", "idle")] else [])
  else if n = "short_rest" then
    (if "idle" ∈ names then [("timeout", "idle")] else [])
  else if n = "attack" then
    (if "idle" ∈ names then [("complete", "idle")] else [])
  else []

/-- Embeds the rest-state configuration of `PieceFactory._build_state_machine`
(`PieceFactory.py` lines 87-92): `long_rest` rests for 2000 ms, `short_rest`
for 1000 ms, everything else is not a rest state. -/
def restFor (n : String) : Bool × Int :=
  if n = "long_rest" then (true, 2000)
  else if n = "short_rest" then (true, 1000)
  else (false, 0)

/-- The state graph `PieceFactory` builds for a given list of state names. -/
def buildGraph (names : List String) : StateGraph :=
  names.map (fun n =>
    (n, { is_rest_state := (restFor n).1,
          rest_duration_ms := (restFor n).2,
          transitions := transitionsFor names n }))

/-- The graph for the minimum required state set (spec §3 invariants): these
three states are always present, synthesised if missing
(`PieceFactory._get_missing_states`). -/
def stdGraph : StateGraph := buildGraph ["idle", "move", "long_rest"]

/-- Embeds the mover classification used throughout
`Game._resolve_collisions` (`Game.py` lines 227-228, 287-288): a piece is a
mover when its motion flag is set or its state is `move` or `jump`;
otherwise it is stationary. -/
def classifyMoving (p : Piece) : Bool :=
  p.current_state.physics.is_moving ||
    p.current_state.state == "move" || p.current_state.state == "jump"

/-- In-place mutation of one piece of the live set, by id (Python mutates the
`Piece` object; ids are unique, the dict keys of `Game.pieces`). -/
def updatePiece (l : List Piece) (pid : String) (f : Piece → Piece) : List Piece :=
  l.map (fun q => if q.piece_id = pid then f q else q)

/-- Embeds one same-side revert of `Game._resolve_collisions` (`Game.py`
lines 232-239): rewrite the in-flight destination back to the piece's own
current cell, clear the motion flag, then send a synthetic idle command
through the piece's ordinary command path. -/
def revertMover (now : Int) (p : Piece) : Piece :=
  let p1 := { p with current_state :=
    { p.current_state with physics :=
      { p.current_state.physics with
          target_cell := p.current_state.physics.current_cell,
          is_moving := false } } }
  p1.on_command (Command.create_idle_command now p.piece_id) now

/-- Applies `revertMover` to each listed piece of the live set in order
(the revert loops of `Game._resolve_collisions`). -/
def revertAll (now : Int) (movers : List Piece) (cur : List Piece) : List Piece :=
  movers.foldl (fun acc mp => updatePiece acc mp.piece_id (revertMover now)) cur

/-- Python `max(l, key=lambda p: p.last_action_time)`: first piece with the
maximal action time (`Game.py` line 297). -/
def maxByLast : List Piece → Option Piece
  | [] => none
  | p :: ps => some (ps.foldl
      (fun best q => if best.last_action_time < q.last_action_time then q else best) p)

/-- Python `min(l, key=lambda p: p.last_action_time)`: first piece with the
minimal action time (`Game.py` line 298). -/
def minByLast : List Piece → Option Piece
  | [] => none
  | p :: ps => some (ps.foldl
      (fun best q => if q.last_action_time < best.last_action_time then q else best) p)

/-- The cell's white occupants (`Game.py` line 220). -/
def whitesOf (l : List Piece) : List Piece := l.filter (fun p => p.color == "White")

/-- The cell's black occupants (`Game.py` line 221). -/
def blacksOf (l : List Piece) : List Piece := l.filter (fun p => p.color == "Black")

/-- The movers among some occupants (`Game.py` lines 228, 254). -/
def moversOf (l : List Piece) : List Piece := l.filter (fun p => classifyMoving p)

/-- The stationary pieces among some occupants (`Game.py` lines 227, 253). -/
def stationaryOf (l : List Piece) : List Piece := l.filter (fun p => !classifyMoving p)

/-- Embeds the white same-colour branch of `Game._resolve_collisions`
(`Game.py` lines 225-249): when more than one white piece shares the cell,
revert the movers if both movers and stationary occupants are present, and
otherwise revert all whites but the first. -/
def whitePass (now : Int) (l : List Piece) : List Piece :=
  if 1 < (whitesOf l).length then
    if stationaryOf (whitesOf l) ≠ [] ∧ moversOf (whitesOf l) ≠ [] then
      revertAll now (moversOf (whitesOf l)) l
    else revertAll now ((whitesOf l).drop 1) l
  else l

/-- Embeds the black same-colour branch of `Game._resolve_collisions`
(`Game.py` lines 251-275).  The guard counts the cell's black occupants;
their classification reads the pieces as already mutated by the white branch
(`cur`), as the shared Python objects are. -/
def blackPass (now : Int) (l : List Piece) (cur : List Piece) : List Piece :=
  if 1 < (blacksOf l).length then
    if stationaryOf (blacksOf cur) ≠ [] ∧ moversOf (blacksOf cur) ≠ [] then
      revertAll now (moversOf (blacksOf cur)) cur
    else revertAll now ((blacksOf cur).drop 1) cur
  else cur

/-- Embeds the attacker/defender choice of the enemy branch of
`Game._resolve_collisions` (`Game.py` lines 280-306) over the cell's
(already mutated) occupants: the scan keeps the last mover as attacker and
the last non-mover as defender; with no mover, the fall-back picks the
most/least recently acting occupant.  Python's object-identity test
`attacking_piece != defending_piece` is rendered as an id comparison (ids
are unique, being the keys of `Game.pieces`).  The result is the id
appended to `to_remove`, if any. -/
def enemyRemoval? (cur : List Piece) : Option String :=
  match (moversOf cur).getLast? with
  | some a =>
    match (stationaryOf cur).getLast? with
    | some d => if d.piece_id = a.piece_id then none else some d.piece_id
    | none => none
  | none =>
    match maxByLast cur, minByLast cur with
    | some a, some d => if d.piece_id = a.piece_id then none else some d.piece_id
    | _, _ => none

/-- Embeds the per-cell body of `Game._resolve_collisions` (`Game.py` lines
217-307) for one cell's occupant list: the white branch, then the black
branch, then the enemy-collision branch guarded by both colours being
present among the cell's occupants.  Returns the updated occupants (same
order) and the ids appended to `to_remove` for this cell. -/
def processCell (now : Int) (pieces_in_cell : List Piece) : List Piece × List String :=
  if pieces_in_cell.length ≤ 1 then (pieces_in_cell, [])
  else
    (blackPass now pieces_in_cell (whitePass now pieces_in_cell),
     if whitesOf pieces_in_cell ≠ [] ∧ blacksOf pieces_in_cell ≠ [] then
       (enemyRemoval? (blackPass now pieces_in_cell (whitePass now pieces_in_cell))).toList
     else [])

/-- One step of the position grouping of `Game._resolve_collisions`
(`Game.py` lines 210-214): append the piece to its cell's bucket, keeping
Python-dict insertion order. -/
def addToGroups (acc : List (Cell × List Piece)) (pos : Cell) (p : Piece) :
    List (Cell × List Piece) :=
  match acc with
  | [] => [(pos, [p])]
  | (q, l) :: rest =>
    if q = pos then (q, l ++ [p]) :: rest else (q, l) :: addToGroups rest pos p

/-- Groups the live pieces by `physics.get_pos()` (`Game.py` lines 210-214). -/
def groupByPos (ps : List Piece) : List (Cell × List Piece) :=
  ps.foldl (fun acc p => addToGroups acc p.current_state.physics.get_pos p) []

/-- The ids accumulated in `to_remove` over one `Game._resolve_collisions`
pass: the concatenation of every cell's contribution, in cell order. -/
def resolveRemovals (now : Int) (pieces : List Piece) : List String :=
  ((groupByPos pieces).map (fun g => (processCell now g.2).2)).flatten

/-- The live piece set after one `Game._resolve_collisions` pass: every
piece replaced by its updated version from its cell's processing, then the
captured ids deleted (`Game.py` lines 309-314). -/
def resolvePieces (now : Int) (pieces : List Piece) : List Piece :=
  let updated := ((groupByPos pieces).map (fun g => (processCell now g.2).1)).flatten
  let removals := resolveRemovals now pieces
  (pieces.map (fun p =>
    match updated.find? (fun q => q.piece_id == p.piece_id) with
    | some q => q
    | none => p)).filter (fun p => !removals.contains p.piece_id)

/-- Embeds `Game._resolve_collisions` (`Game.py` lines 204-314) as a whole:
the updated live piece set and the removed ids.  `now` stands for the
`game_time_ms()` clock sampled during the pass. -/
def resolve_collisions (now : Int) (pieces : List Piece) : List Piece × List String :=
  (resolvePieces now pieces, resolveRemovals now pieces)

/-- Occupancy scan of `Game._is_path_blocked` (`Game.py` lines 438-441):
some live piece's current cell equals the probed cell. -/
def occupiedAt (pieces : List Piece) (cell : Cell) : Bool :=
  pieces.any (fun p => p.current_state.physics.current_cell == cell)

/-- Direction of movement along one axis (`Game.py` lines 429-430):
`0` when the coordinates agree, else the sign of the difference. -/
def stepDir (a b : Int) : Int :=
  if a = b then 0 else if a < b then 1 else -1

/-- The `while` loop of `Game._is_path_blocked` (`Game.py` lines 436-445):
step from `cur` by `(rdir, cdir)` until the end cell is reached, reporting a
block at the first occupied cell on the way.  The Python loop has no other
exit; `fuel` bounds the number of iterations modelled, and `none` means the
loop is still running when the fuel runs out. -/
def pathWalk (pieces : List Piece) (rdir cdir : Int) (endp : Cell) :
    Nat → Cell → Option Bool
  | 0, _ => none
  | fuel + 1, cur =>
    if cur = endp then some false
    else if occupiedAt pieces cur then some true
    else pathWalk pieces rdir cdir endp fuel (cur.1 + rdir, cur.2 + cdir)

/-- Embeds `Game._is_path_blocked` (`Game.py` lines 419-447): knights never
block; otherwise walk the unit-step ray from just after the start cell. -/
def is_path_blocked (pieces : List Piece) (start_pos end_pos : Cell)
    (piece : Piece) (fuel : Nat) : Option Bool :=
  if piece.piece_type = "N" then some false
  else
    let rdir := stepDir start_pos.1 end_pos.1
    let cdir := stepDir start_pos.2 end_pos.2
    pathWalk pieces rdir cdir end_pos fuel (start_pos.1 + rdir, start_pos.2 + cdir)

/-- The target-piece scan of `Game._select_piece` (`Game.py` lines 496-500):
first live piece whose current cell is the destination. -/
def find_target (pieces : List Piece) (pos : Cell) : Option Piece :=
  pieces.find? (fun p => p.current_state.physics.current_cell == pos)

/-- Embeds the `move_blocked` computation of `Game._select_piece` (`Game.py`
lines 502-532): the pawn rules (double move only before the first move,
capture only diagonally by one, advance onto an empty cell only straight)
followed by the same-colour friendly-fire check. -/
def select_move_blocked (selected : Piece) (start_pos pos : Cell)
    (target_piece : Option Piece) : Bool :=
  let pawn_blocked :=
    if selected.piece_type == "P" then
      let row_diff := (pos.1 - start_pos.1).natAbs
      let col_diff := (pos.2 - start_pos.2).natAbs
      if row_diff == 2 && selected.has_moved then true
      else
        match target_piece with
        | some _ =>
          if col_diff == 0 then true
          else if col_diff == 1 && row_diff == 1 then false
          else true
        | none => if col_diff != 0 then true else false
    else false
  match target_piece with
  | some t => if t.color == selected.color then true else pawn_blocked
  | none => pawn_blocked

/-- Python whitespace as used by `str.strip()` and `int()`. -/
def isPySpace (c : Char) : Bool :=
  c == ' ' || c == '\t' || c == '\n' || c == '\r' || c == '\x0b' || c == '\x0c'

/-- Models Python `str.strip()` on the character list of a string. -/
def pyStripChars (l : List Char) : List Char :=
  ((l.dropWhile isPySpace).reverse.dropWhile isPySpace).reverse

/-- Character membership, modelling Python `sep in s`. -/
def pyContains (sep : Char) (l : List Char) : Bool :=
  l.any (fun c => c == sep)

/-- Models Python `str.split(sep)` for a one-character separator: splitting
`n` occurrences yields `n + 1` parts. -/
def splitChars (sep : Char) : List Char → List (List Char)
  | [] => [[]]
  | c :: rest =>
    if c == sep then [] :: splitChars sep rest
    else
      match splitChars sep rest with
      | [] => [[c]]
      | part :: parts => (c :: part) :: parts

/-- Decimal value of a digit list. -/
def digitsVal (l : List Char) : Nat :=
  l.foldl (fun a c => a * 10 + (c.toNat - 48)) 0

/-- Models Python `int(s)` on a character list: surrounding whitespace is
stripped, an optional single sign is allowed, and at least one decimal digit
must follow; everything else raises `ValueError`, i.e. `none`.  (Python's
underscore digit separators are not used by any move file and are not
modelled.) -/
def pyInt? (l : List Char) : Option Int :=
  let t := pyStripChars l
  match t with
  | '+' :: rest =>
    if rest ≠ [] ∧ rest.all Char.isDigit then some (digitsVal rest) else none
  | '-' :: rest =>
    if rest ≠ [] ∧ rest.all Char.isDigit then some (-(digitsVal rest : Int)) else none
  | _ => if t ≠ [] ∧ t.all Char.isDigit then some (digitsVal t) else none

/-- The two comma-separated numbers of one move-rule line, in written order
`(a, b)`, or `none` when `Moves.__init__` (`Moves.py` lines 13-34) skips the
line: blank lines and `#` comments; a line without a comma in its coordinate
part; a coordinate part that does not unpack into exactly two integers
(Python's `ValueError` from `dc, dr = map(int, ...)`).  A `:` qualifier is
cut off first. -/
def writtenNumbers? (raw : String) : Option (Int × Int) :=
  let line := pyStripChars raw.data
  if line = [] ∨ line.head? = some '#' then none
  else
    let coords_part :=
      if pyContains ':' line then pyStripChars ((splitChars ':' line).headD [])
      else pyStripChars line
    if pyContains ',' coords_part then
      match splitChars ',' coords_part with
      | [a, b] =>
        match pyInt? a, pyInt? b with
        | some x, some y => some (x, y)
        | _, _ => none
      | _ => none
    else none

/-- The delta `Moves.__init__` stores for one line: Python reads
`dc, dr = map(int, ...)` and appends `(dr, dc)`, i.e. the written pair
swapped (`Moves.py` lines 28-29). -/
def lineDelta? (raw : String) : Option (Int × Int) :=
  (writtenNumbers? raw).map (fun ab => (ab.2, ab.1))

/-- Embeds `Moves.__init__` (`Moves.py` lines 6-34) applied to the lines of
the rules file: `dims` is `(board_height, board_width)`; each parsable line
appends its stored delta, skipped lines contribute nothing and loading
continues. -/
def Moves.init (lines : List String) (dims : Int × Int) : Moves :=
  { board_height := dims.1, board_width := dims.2,
    move_deltas := lines.foldl (fun acc raw =>
      match lineDelta? raw with
      | some d => acc ++ [d]
      | none => acc) [] }

/-- Embeds `Moves.get_moves` (`Moves.py` lines 36-48): offset the position by
every stored delta (`new_r = r + dr`, `new_c = c + dc`) and keep the
in-board results, in delta order. -/
def Moves.get_moves (m : Moves) (r c : Int) : List (Int × Int) :=
  m.move_deltas.foldl (fun acc d =>
    if 0 ≤ r + d.1 ∧ r + d.1 < m.board_height ∧ 0 ≤ c + d.2 ∧ c + d.2 < m.board_width then
      acc ++ [(r + d.1, c + d.2)]
    else acc) []

/-! ### Concrete fixtures

Small concrete pieces and states used by the witnesses and counterexamples
below.  They are built over `stdGraph`, the idle/move/long_rest graph wired
by `PieceFactory._setup_transitions`. -/

/-- An empty move table over an 8x8 board. -/
def emptyMoves : Moves := { board_height := 8, board_width := 8, move_deltas := [] }

/-- A live idle state settled on cell `(2, 2)`. -/
def idleStateAt22 : State :=
  { state := "idle", is_rest_state := false, rest_duration_ms := 0,
    state_start_time := 0, transitions := [("Move", "move")],
    physics := { current_cell := (2, 2), target_cell := (2, 2), is_moving := false },
    current_command := none, moves := emptyMoves }

/-- A live move state whose motion has reached cell `(2, 2)` but whose state
machine has not completed yet (in-flight flag still set). -/
def moveStateAt22 : State :=
  { idleStateAt22 with
    state := "move"
    transitions := [("complete", "long_rest")]
    physics := { current_cell := (2, 2), target_cell := (2, 2), is_moving := true } }

/-- A stationary white queen occupying `(2, 2)`. -/
def whiteIdlePiece : Piece :=
  { piece_id := "QW_a", current_state := idleStateAt22, piece_type := "Q",
    color := "White", move_count := 0, has_moved := false, last_action_time := 0,
    cooldown_duration := 2000, start_time := 0, graph := stdGraph }

/-- A white queen that accepted a Move at t=2000 and has ended up on
`(2, 2)` while still in its `move` state. -/
def whiteMoverPiece : Piece :=
  { whiteIdlePiece with
    piece_id := "QW_b"
    current_state := moveStateAt22
    last_action_time := 2000
    has_moved := true
    move_count := 1 }

/-- A live long_rest state entered at t=1000 (rest lasts 2000 ms). -/
def longRestState : State :=
  { idleStateAt22 with
    state := "long_rest"
    is_rest_state := true
    rest_duration_ms := 2000
    state_start_time := 1000
    transitions := [("timeout", "idle")] }

/-- A white pawn on `(4, 4)` that has already moved. -/
def movedPawnPiece : Piece :=
  { whiteIdlePiece with
    piece_id := "PW_e"
    piece_type := "P"
    current_state := { idleStateAt22 with
                       physics := { current_cell := (4, 4), target_cell := (4, 4),
                                    is_moving := false } }
    has_moved := true
    move_count := 1 }

/-- A black pawn sitting on `(3, 3)`. -/
def blackPawnPiece : Piece :=
  { whiteIdlePiece with
    piece_id := "PB_d"
    piece_type := "P"
    color := "Black"
    current_state := { idleStateAt22 with
                       physics := { current_cell := (3, 3), target_cell := (3, 3),
                                    is_moving := false } }}

/-- A white rook on `(0, 0)`. -/
def rookPiece : Piece :=
  { whiteIdlePiece with
    piece_id := "RW_a"
    piece_type := "R"
    current_state := { idleStateAt22 with
                       physics := { current_cell := (0, 0), target_cell := (0, 0),
                                    is_moving := false } }}

/-- A black pawn blocking cell `(0, 3)`. -/
def blockerPiece : Piece :=
  { blackPawnPiece with
    piece_id := "PB_f"
    current_state := { idleStateAt22 with
                       physics := { current_cell := (0, 3), target_cell := (0, 3),
                                    is_moving := false } }}

/-! ### C4 — rest-state can-leave boundary -/

/-- C4: for a rest-flagged state, `can_transition` is false for every `now`
in `[state_start_time, state_start_time + rest_duration_ms)` and true at and
after the boundary; for a non-rest state it is always true
(`State.can_transition`, `State.py` lines 81-90). -/
theorem rest_state_can_leave_boundary (s : State) (now : Int) :
    (s.is_rest_state = true →
      ((s.state_start_time ≤ now ∧ now < s.state_start_time + s.rest_duration_ms →
          s.can_transition now = false) ∧
       (s.state_start_time + s.rest_duration_ms ≤ now →
          s.can_transition now = true))) ∧
    (s.is_rest_state = false → s.can_transition now = true) := by
  unfold State.can_transition
  refine ⟨fun h => ⟨fun hin => ?_, fun hge => ?_⟩, fun h => ?_⟩ <;>
    simp only [h, if_true, if_false, Bool.false_eq_true, decide_eq_false_iff_not,
      decide_eq_true_eq]
  · omega
  · omega

/-- Witness for C4 at the `long_rest` fixture entered at t=1000: still
resting at t=2500, free at t=3000. -/
theorem rest_state_can_leave_boundary_witness :
    longRestState.can_transition 2500 = false ∧
    longRestState.can_transition 3000 = true :=
  ⟨((rest_state_can_leave_boundary longRestState 2500).1 (by decide)).1 (by decide),
   ((rest_state_can_leave_boundary longRestState 3000).1 (by decide)).2 (by decide)⟩

/-! ### C3 — global cooldown makes dispatch a no-op -/

/-- C3: a command addressed to a piece is a complete no-op whenever
`now - last_action_time < cooldown_duration` (2000 ms from
`Piece.__init__`), regardless of its kind: the piece — in particular its
current state, `last_action_time`, `has_moved` and `move_count` — is
returned unchanged (`Piece.on_command`, `Piece.py` lines 106-121). -/
theorem dispatch_cooldown_noop (p : Piece) (cmd : Command) (now : Int)
    (_haddr : cmd.piece_id = p.piece_id)
    (hcool : now - p.last_action_time < p.cooldown_duration) :
    p.on_command cmd now = p := by
  unfold Piece.on_command
  split_ifs <;> rfl

/-- Witness for C3: a Move command to the in-cooldown mover fixture at
t=2100 leaves it untouched. -/
theorem dispatch_cooldown_noop_witness :
    whiteMoverPiece.on_command
      (Command.create_move_command 2100 "QW_b" (2, 2) (4, 2)) 2100 = whiteMoverPiece :=
  dispatch_cooldown_noop whiteMoverPiece _ 2100 (by decide) (by decide)

/-! ### C5 — pawn double move rejected once has_moved is set -/

/-- C5: a Move command for a pawn whose `has_moved` flag is set and whose
source/destination differ by an absolute row delta of 2 is dropped before
the state machine is consulted: the piece — state, `last_action_time`,
`move_count` — is returned unchanged (`Piece.on_command`, `Piece.py` lines
123-134). -/
theorem pawn_double_move_rejected (p : Piece) (cmd : Command) (now : Int)
    (s t : Cell) (hP : p.piece_type = "P") (hm : p.has_moved = true)
    (ht : cmd.type = "Move") (hs : cmd.source = some s) (htg : cmd.target = some t)
    (hrow : (t.1 - s.1).natAbs = 2) :
    p.on_command cmd now = p := by
  have hblock : pawnDoubleBlocked p cmd = true := by
    unfold pawnDoubleBlocked
    rw [hP, ht, hs, htg]
    simp [hrow, hm]
  unfold Piece.on_command
  split_ifs <;> rfl

/-- Witness for C5: the already-moved pawn fixture at `(4, 4)` dropping a
two-row advance to `(2, 4)`, with the cooldown long expired. -/
theorem pawn_double_move_rejected_witness :
    movedPawnPiece.on_command
      (Command.create_move_command 9000 "PW_e" (4, 4) (2, 4)) 9000 = movedPawnPiece :=
  pawn_double_move_rejected movedPawnPiece _ 9000 (4, 4) (2, 4)
    (by decide) (by decide) (by decide) (by decide) (by decide) (by decide)

/-! ### C8 — reset round-trip -/

/-- C8 (amended): `Piece.reset t` re-initialises `last_action_time := t`,
`has_moved := false`, `move_count := 0` and re-enters the current state via
a synthetic idle command, which re-baselines the state clock but leaves the
state identity unchanged — the piece ends in `idle` only if it already was
(`Piece.reset`, `Piece.py` lines 157-164; `State.reset`, `State.py` lines
73-79). -/
theorem reset_reinitializes_fields (p : Piece) (t : Int) :
    (p.reset t).last_action_time = t ∧
    (p.reset t).has_moved = false ∧
    (p.reset t).move_count = 0 ∧
    (p.reset t).start_time = t ∧
    (p.reset t).current_state.state_start_time = t ∧
    (p.reset t).current_state.state = p.current_state.state :=
  ⟨rfl, rfl, rfl, rfl, rfl, rfl⟩

/-- Counterexample to C8 as stated: a piece that reached the `move` state by
dispatching a legal Move command (a reachable configuration) is still in
state `move` — not `idle` — after `reset`. -/
theorem reset_keeps_state_name_counterexample :
    ((whiteIdlePiece.on_command
        (Command.create_move_command 2000 "QW_a" (2, 2) (3, 2)) 2000).reset
      5000).current_state.state = "move" ∧
    (((whiteIdlePiece.on_command
        (Command.create_move_command 2000 "QW_a" (2, 2) (3, 2)) 2000).reset
      5000).current_state.state = "idle") = False := by
  constructor
  · decide
  · decide

/-! ### C2 — the same-side mover is reverted but never actually forced to idle -/

/-- C2: at the scenario-4 configuration — stationary white `QW_a` and white
mover `QW_b` (accepted its Move at t=2000) sharing cell `(2, 2)` — one
arbitration pass reverts the mover (destination rewritten to its own cell,
in-flight flag cleared) and removes nothing, but the synthetic idle command
travels the ordinary `Piece.on_command` path: at t=2500 the 2000 ms global
cooldown drops it, and even at t=9999, with the cooldown expired, the `move`
state has no "idle" transition — in both cases the mover ends the pass still
in state `move`, not `idle`. -/
theorem same_side_mover_never_forced_idle :
    (resolve_collisions 2500 [whiteIdlePiece, whiteMoverPiece]).2 = [] ∧
    ((resolve_collisions 2500 [whiteIdlePiece, whiteMoverPiece]).1.map
      (fun p => (p.piece_id, p.current_state.state, p.current_state.physics.target_cell,
                 p.current_state.physics.is_moving)))
      = [("QW_a", "idle", (2, 2), false), ("QW_b", "move", (2, 2), false)] ∧
    ((resolve_collisions 9999 [whiteIdlePiece, whiteMoverPiece]).1.map
      (fun p => (p.piece_id, p.current_state.state)))
      = [("QW_a", "idle"), ("QW_b", "move")] :=
  ⟨by decide, by decide, by decide⟩

/-! ### C6 — pawn move legality at command issue -/

/-- C6: the pawn rules of `Game._select_piece` (`Game.py` lines 504-532).
Onto a cell occupied by an opposing piece, a pawn move survives the check
only when both absolute deltas are 1 (diagonal capture); a straight move
(column delta 0) onto any occupied cell is always blocked; onto an empty
cell, only a straight move survives, and any diagonal move is blocked. -/
theorem pawn_move_legality_cases (selected : Piece) (start_pos pos : Cell)
    (t? : Option Piece) (hP : selected.piece_type = "P") :
    (∀ tp, t? = some tp → tp.color ≠ selected.color →
        select_move_blocked selected start_pos pos t? = false →
        (pos.2 - start_pos.2).natAbs = 1 ∧ (pos.1 - start_pos.1).natAbs = 1) ∧
    (∀ tp, t? = some tp → (pos.2 - start_pos.2).natAbs = 0 →
        select_move_blocked selected start_pos pos t? = true) ∧
    (t? = none → select_move_blocked selected start_pos pos t? = false →
        (pos.2 - start_pos.2).natAbs = 0) ∧
    (t? = none → (pos.2 - start_pos.2).natAbs ≠ 0 →
        select_move_blocked selected start_pos pos t? = true) := by
  have hPP : (selected.piece_type == "P") = true := by simp [hP]
  refine ⟨?_, ?_, ?_, ?_⟩
  · rintro tp rfl hcol hfalse
    have hcc : (tp.color == selected.color) = false := by
      simpa using hcol
    unfold select_move_blocked at hfalse
    simp only [hPP, if_true, hcc, Bool.false_eq_true, if_false] at hfalse
    split_ifs at hfalse <;> simp_all
  · rintro tp rfl hcol
    unfold select_move_blocked
    simp only [hPP, if_true]
    split_ifs <;> simp_all
  · rintro rfl hfalse
    unfold select_move_blocked at hfalse
    simp only [hPP, if_true] at hfalse
    split_ifs at hfalse <;> simp_all
  · rintro rfl hne
    unfold select_move_blocked
    simp only [hPP, if_true]
    split_ifs <;> simp_all

/-- Witness for C6 at concrete cells: the white pawn fixture capturing the
black pawn diagonally is not what is blocked — a straight advance onto the
occupied cell and a diagonal step onto an empty cell both are. -/
theorem pawn_move_legality_cases_witness :
    select_move_blocked movedPawnPiece (4, 4) (3, 4) (some blackPawnPiece) = true ∧
    select_move_blocked movedPawnPiece (4, 4) (3, 3) none = true := by
  constructor
  · exact (pawn_move_legality_cases movedPawnPiece (4, 4) (3, 4)
      (some blackPawnPiece) (by decide)).2.1 blackPawnPiece rfl (by decide)
  · exact (pawn_move_legality_cases movedPawnPiece (4, 4) (3, 3)
      none (by decide)).2.2.2 rfl (by decide)

/-! ### Arbiter bookkeeping lemmas -/

theorem on_command_piece_id (p : Piece) (cmd : Command) (now : Int) :
    (p.on_command cmd now).piece_id = p.piece_id := by
  unfold Piece.on_command
  split_ifs <;>
    first
      | rfl
      | cases p.current_state.get_state_after_command p.graph cmd now <;> rfl

theorem revertMover_piece_id (now : Int) (p : Piece) :
    (revertMover now p).piece_id = p.piece_id := by
  unfold revertMover
  rw [on_command_piece_id]

theorem updatePiece_map_id (l : List Piece) (pid : String) (f : Piece → Piece)
    (hf : ∀ q, (f q).piece_id = q.piece_id) :
    (updatePiece l pid f).map Piece.piece_id = l.map Piece.piece_id := by
  unfold updatePiece
  rw [List.map_map]
  apply List.map_congr_left
  intro q _
  by_cases h : q.piece_id = pid <;> simp [h, hf]

theorem revertAll_map_id (now : Int) (movers cur : List Piece) :
    (revertAll now movers cur).map Piece.piece_id = cur.map Piece.piece_id := by
  induction movers generalizing cur with
  | nil => rfl
  | cons m ms ih =>
    show (revertAll now ms (updatePiece cur m.piece_id (revertMover now))).map _ = _
    rw [ih, updatePiece_map_id]
    exact fun q => revertMover_piece_id now q

theorem whitePass_map_id (now : Int) (l : List Piece) :
    (whitePass now l).map Piece.piece_id = l.map Piece.piece_id := by
  unfold whitePass
  split_ifs <;> first | rfl | rw [revertAll_map_id]

theorem blackPass_map_id (now : Int) (l cur : List Piece) :
    (blackPass now l cur).map Piece.piece_id = cur.map Piece.piece_id := by
  unfold blackPass
  split_ifs <;> first | rfl | rw [revertAll_map_id]

theorem processCell_fst_map_id (now : Int) (l : List Piece) :
    ((processCell now l).1).map Piece.piece_id = l.map Piece.piece_id := by
  unfold processCell
  split_ifs <;>
    first
      | rfl
      | exact (blackPass_map_id now l _).trans (whitePass_map_id now l)

theorem foldl_choice_mem {α : Type} (f : α → α → α)
    (hf : ∀ a b, f a b = a ∨ f a b = b) (a : α) (l : List α) :
    l.foldl f a ∈ a :: l := by
  induction l generalizing a with
  | nil => simp
  | cons b bs ih =>
    rw [List.foldl_cons]
    rcases List.mem_cons.mp (ih (f a b)) with h1 | h1
    · rcases hf a b with h2 | h2 <;> rw [h1, h2] <;> simp
    · simp [List.mem_cons.mpr (Or.inr h1)]

theorem maxByLast_mem (l : List Piece) (m : Piece) (h : maxByLast l = some m) :
    m ∈ l := by
  cases l with
  | nil => simp [maxByLast] at h
  | cons p ps =>
    simp only [maxByLast, Option.some.injEq] at h
    rw [← h]
    exact foldl_choice_mem _ (fun a b => by split_ifs <;> simp) p ps

theorem minByLast_mem (l : List Piece) (m : Piece) (h : minByLast l = some m) :
    m ∈ l := by
  cases l with
  | nil => simp [minByLast] at h
  | cons p ps =>
    simp only [minByLast, Option.some.injEq] at h
    rw [← h]
    exact foldl_choice_mem _ (fun a b => by split_ifs <;> simp) p ps

theorem getLast?_mem {α : Type} (l : List α) (a : α) (h : l.getLast? = some a) :
    a ∈ l := by
  induction l with
  | nil => simp at h
  | cons b bs ih =>
    cases bs with
    | nil => simp_all
    | cons c cs =>
      rw [List.getLast?_cons_cons] at h
      exact List.mem_cons.mpr (Or.inr (ih h))

theorem enemyRemoval?_mem (cur : List Piece) (s : String)
    (h : enemyRemoval? cur = some s) : s ∈ cur.map Piece.piece_id := by
  unfold enemyRemoval? at h
  split at h
  · split at h
    · rename_i d hD
      split_ifs at h
      obtain rfl : d.piece_id = s := by simpa using h
      exact List.mem_map_of_mem _ (List.mem_of_mem_filter (getLast?_mem _ _ hD))
    · cases h
  · split at h
    · rename_i a d hM hm
      split_ifs at h
      obtain rfl : d.piece_id = s := by simpa using h
      exact List.mem_map_of_mem _ (minByLast_mem _ _ hm)
    · cases h

theorem processCell_snd_length (now : Int) (l : List Piece) :
    ((processCell now l).2).length ≤ 1 := by
  unfold processCell
  split_ifs
  · simp
  · cases enemyRemoval? (blackPass now l (whitePass now l)) <;> simp
  · simp

theorem processCell_snd_sub (now : Int) (l : List Piece) :
    ∀ s ∈ (processCell now l).2, s ∈ l.map Piece.piece_id := by
  unfold processCell
  split_ifs
  · simp
  · intro s hs
    rw [Option.mem_toList, Option.mem_def] at hs
    have hmem := enemyRemoval?_mem _ s hs
    rwa [blackPass_map_id, whitePass_map_id] at hmem
  · simp

theorem processCell_snd_same_side (now : Int) (l : List Piece)
    (h : (∀ p ∈ l, p.color = "White") ∨ (∀ p ∈ l, p.color = "Black")) :
    (processCell now l).2 = [] := by
  unfold processCell
  split_ifs with h1 hg
  · rfl
  · exfalso
    rcases h with hw | hb
    · rcases hg with ⟨-, hbne⟩
      apply hbne
      apply List.filter_eq_nil.mpr
      intro p hp
      rw [hw p hp]
      decide
    · rcases hg with ⟨hwne, -⟩
      apply hwne
      apply List.filter_eq_nil.mpr
      intro p hp
      rw [hb p hp]
      decide
  · rfl

/-! ### Grouping partitions the live pieces -/

theorem addToGroups_flatten (acc : List (Cell × List Piece)) (pos : Cell) (p : Piece) :
    List.Perm ((addToGroups acc pos p).map Prod.snd).flatten
      ((acc.map Prod.snd).flatten ++ [p]) := by
  induction acc with
  | nil => simp [addToGroups]
  | cons g rest ih =>
    obtain ⟨q, l⟩ := g
    unfold addToGroups
    split_ifs with h
    · simp only [List.map_cons, List.flatten_cons]
      rw [List.append_assoc, List.append_assoc]
      exact List.Perm.append_left l List.perm_append_comm
    · simp only [List.map_cons, List.flatten_cons]
      refine List.Perm.trans (List.Perm.append_left l ih) ?_
      rw [List.append_assoc]

theorem groupByPos_flatten (ps : List Piece) :
    List.Perm ((groupByPos ps).map Prod.snd).flatten ps := by
  suffices h : ∀ acc : List (Cell × List Piece),
      List.Perm (((ps.foldl (fun acc p => addToGroups acc p.current_state.physics.get_pos p)
          acc).map Prod.snd).flatten) ((acc.map Prod.snd).flatten ++ ps) by
    simpa [groupByPos] using h []
  induction ps with
  | nil => intro acc; simp
  | cons p ps ih =>
    intro acc
    rw [List.foldl_cons]
    refine List.Perm.trans (ih _) ?_
    refine List.Perm.trans ((addToGroups_flatten acc _ p).append_right ps) ?_
    rw [List.append_assoc, List.singleton_append]

theorem removals_flatten_sub (now : Int) (gs : List (Cell × List Piece)) :
    ∀ x ∈ (gs.map (fun g => (processCell now g.2).2)).flatten,
      x ∈ ((gs.map Prod.snd).flatten).map Piece.piece_id := by
  intro x hx
  rw [List.mem_flatten] at hx
  obtain ⟨lx, hlx, hxl⟩ := hx
  rw [List.mem_map] at hlx
  obtain ⟨g, hg, rfl⟩ := hlx
  have hsub := processCell_snd_sub now g.2 x hxl
  rw [List.mem_map] at hsub
  obtain ⟨q, hq, rfl⟩ := hsub
  exact List.mem_map_of_mem _ (List.mem_flatten.mpr ⟨g.2, List.mem_map_of_mem _ hg, hq⟩)

/-! ### C1 — the arbitration pass removes at most one piece per cell -/

/-- C1: over one `Game._resolve_collisions` pass with unique piece ids, for
every cell bucket of the position grouping: if the bucket's occupants are
all of one side no occupant is removed, and at most one of the removed ids
belongs to the bucket — in particular the pass never removes two pieces of
one side, nor two pieces at all, from a single cell. -/
theorem collision_pass_per_cell (now : Int) (game : List Piece)
    (hnd : (game.map Piece.piece_id).Nodup)
    (cell : Cell) (members : List Piece)
    (hmem : (cell, members) ∈ groupByPos game) :
    ((∀ p ∈ members, p.color = "White") ∨ (∀ p ∈ members, p.color = "Black") →
        ∀ p ∈ members, p.piece_id ∉ resolveRemovals now game) ∧
    (resolveRemovals now game).countP
        (fun s => decide (s ∈ members.map Piece.piece_id)) ≤ 1 := by
  obtain ⟨s, t, hst⟩ := List.append_of_mem hmem
  have hperm : List.Perm ((((groupByPos game).map Prod.snd).flatten).map Piece.piece_id)
      (game.map Piece.piece_id) := (groupByPos_flatten game).map _
  have hbig : ((((groupByPos game).map Prod.snd).flatten).map Piece.piece_id).Nodup :=
    (hperm.nodup_iff).mpr hnd
  rw [hst] at hbig
  simp only [List.map_append, List.map_cons, List.flatten_append, List.flatten_cons] at hbig
  rw [List.nodup_append] at hbig
  obtain ⟨-, hbig2, hdisj1⟩ := hbig
  rw [List.nodup_append] at hbig2
  obtain ⟨-, -, hdisj2⟩ := hbig2
  have hrem : resolveRemovals now game =
      (s.map (fun g => (processCell now g.2).2)).flatten ++
        ((processCell now members).2 ++
          (t.map (fun g => (processCell now g.2).2)).flatten) := by
    unfold resolveRemovals
    rw [hst]
    simp [List.map_append, List.flatten_append]
  have hA : ∀ x ∈ (s.map (fun g => (processCell now g.2).2)).flatten,
      x ∉ members.map Piece.piece_id := by
    intro x hx hxm
    have hxs := removals_flatten_sub now s x hx
    exact hdisj1 hxs (List.mem_append.mpr (Or.inl hxm))
  have hC : ∀ x ∈ (t.map (fun g => (processCell now g.2).2)).flatten,
      x ∉ members.map Piece.piece_id := by
    intro x hx hxm
    exact hdisj2 hxm (removals_flatten_sub now t x hx)
  constructor
  · intro hside p hp hmemb
    rw [hrem] at hmemb
    have hpid : p.piece_id ∈ members.map Piece.piece_id := List.mem_map_of_mem _ hp
    rcases List.mem_append.mp hmemb with hx | hx
    · exact hA _ hx hpid
    · rcases List.mem_append.mp hx with hx2 | hx2
      · rw [processCell_snd_same_side now members hside] at hx2
        cases hx2
      · exact hC _ hx2 hpid
  · rw [hrem, List.countP_append, List.countP_append]
    have hcA : (List.countP (fun x => decide (x ∈ members.map Piece.piece_id))
        ((s.map (fun g => (processCell now g.2).2)).flatten)) = 0 := by
      rw [List.countP_eq_zero]
      intro a ha
      simpa using hA a ha
    have hcC : (List.countP (fun x => decide (x ∈ members.map Piece.piece_id))
        ((t.map (fun g => (processCell now g.2).2)).flatten)) = 0 := by
      rw [List.countP_eq_zero]
      intro a ha
      simpa using hC a ha
    have hcB := List.countP_le_length
      (p := fun x => decide (x ∈ members.map Piece.piece_id))
      (l := (processCell now members).2)
    have hlen := processCell_snd_length now members
    omega

/-- Witness for C1 at the concrete two-white-piece cell `(2, 2)`. -/
theorem collision_pass_per_cell_witness :
    ((∀ p ∈ [whiteIdlePiece, whiteMoverPiece], p.color = "White") ∨
        (∀ p ∈ [whiteIdlePiece, whiteMoverPiece], p.color = "Black") →
      ∀ p ∈ [whiteIdlePiece, whiteMoverPiece],
        p.piece_id ∉ resolveRemovals 2500 [whiteIdlePiece, whiteMoverPiece]) ∧
    (resolveRemovals 2500 [whiteIdlePiece, whiteMoverPiece]).countP
      (fun s => decide (s ∈ [whiteIdlePiece, whiteMoverPiece].map Piece.piece_id)) ≤ 1 :=
  collision_pass_per_cell 2500 [whiteIdlePiece, whiteMoverPiece] (by decide)
    (2, 2) [whiteIdlePiece, whiteMoverPiece] (by decide)

/-! ### Path-walk lemmas -/

theorem stepDir_reach (x y : Int) (k : Nat) :
    (x + k * stepDir x y = y) ↔ (x = y ∨ k = (y - x).natAbs) := by
  unfold stepDir
  split_ifs with h1 h2
  · simp [h1]
  · rw [mul_one]
    omega
  · rw [mul_neg_one]
    omega

theorem straight_reach_iff (s1 s2 e1 e2 : Int) (k : Nat)
    (hst : e1 - s1 = 0 ∨ e2 - s2 = 0 ∨ (e1 - s1).natAbs = (e2 - s2).natAbs)
    (hk1 : 1 ≤ k) (hks : k ≤ max (e1 - s1).natAbs (e2 - s2).natAbs)
    (hpos : 1 ≤ max (e1 - s1).natAbs (e2 - s2).natAbs) :
    (((s1 + k * stepDir s1 e1, s2 + k * stepDir s2 e2) : Cell) = (e1, e2)) ↔
      k = max (e1 - s1).natAbs (e2 - s2).natAbs := by
  rw [Prod.mk.injEq, stepDir_reach, stepDir_reach]
  omega

theorem pathWalk_spec (pieces : List Piece) (s1 s2 rdir cdir e1 e2 : Int) (steps : Nat)
    (huniq : ∀ k : Nat, 1 ≤ k → k ≤ steps →
      ((((s1 + k * rdir, s2 + k * cdir) : Cell) = (e1, e2)) ↔ k = steps)) :
    ∀ j : Nat, 1 ≤ j → j ≤ steps → ∀ fuel, steps - j + 1 ≤ fuel →
      pathWalk pieces rdir cdir (e1, e2) fuel (s1 + j * rdir, s2 + j * cdir) =
        some ((List.range' j (steps - j)).any
          (fun k => occupiedAt pieces (s1 + k * rdir, s2 + k * cdir))) := by
  suffices aux : ∀ n j, 1 ≤ j → j ≤ steps → steps - j = n → ∀ fuel, n + 1 ≤ fuel →
      pathWalk pieces rdir cdir (e1, e2) fuel (s1 + j * rdir, s2 + j * cdir) =
        some ((List.range' j (steps - j)).any
          (fun k => occupiedAt pieces (s1 + k * rdir, s2 + k * cdir))) by
    intro j h1 h2 fuel hf
    exact aux (steps - j) j h1 h2 rfl fuel hf
  intro n
  induction n with
  | zero =>
    intro j hj1 hjs hn fuel hf
    have hj : j = steps := by omega
    obtain ⟨f, rfl⟩ : ∃ f, fuel = f + 1 := ⟨fuel - 1, by omega⟩
    have hcur : ((s1 + j * rdir, s2 + j * cdir) : Cell) = (e1, e2) :=
      (huniq j hj1 hjs).mpr hj
    simp [pathWalk, hcur, hn]
  | succ n ih =>
    intro j hj1 hjs hn fuel hf
    obtain ⟨f, rfl⟩ : ∃ f, fuel = f + 1 := ⟨fuel - 1, by omega⟩
    have hne : ¬(((s1 + j * rdir, s2 + j * cdir) : Cell) = (e1, e2)) := by
      rw [huniq j hj1 hjs]
      omega
    have hnext : ((s1 + (j : Int) * rdir + rdir, s2 + (j : Int) * cdir + cdir) : Cell) =
        (s1 + ((j + 1 : Nat) : Int) * rdir, s2 + ((j + 1 : Nat) : Int) * cdir) := by
      rw [Prod.mk.injEq]
      constructor <;> push_cast <;> ring
    have hih := ih (j + 1) (by omega) (by omega) (by omega) f (by omega)
    have hsj : steps - (j + 1) = n := by omega
    rw [hsj] at hih
    rw [hn, List.range'_succ]
    simp only [pathWalk]
    rw [if_neg hne]
    rw [hnext, hih]
    by_cases hocc : occupiedAt pieces (s1 + (j : Int) * rdir, s2 + (j : Int) * cdir)
    · simp [hocc]
    · simp [hocc]

theorem path_blocked_knight_eq (pieces : List Piece) (start_pos end_pos : Cell)
    (piece : Piece) (hN : piece.piece_type = "N") :
    ∀ fuel, is_path_blocked pieces start_pos end_pos piece fuel = some false := by
  intro fuel
  unfold is_path_blocked
  rw [if_pos hN]

theorem path_blocked_straight_eq (pieces : List Piece) (s1 s2 e1 e2 : Int) (piece : Piece)
    (hN : piece.piece_type ≠ "N")
    (hst : e1 - s1 = 0 ∨ e2 - s2 = 0 ∨ (e1 - s1).natAbs = (e2 - s2).natAbs) :
    is_path_blocked pieces (s1, s2) (e1, e2) piece
        (max (e1 - s1).natAbs (e2 - s2).natAbs + 1) =
      some ((List.range' 1 (max (e1 - s1).natAbs (e2 - s2).natAbs - 1)).any
        (fun k => occupiedAt pieces (s1 + k * stepDir s1 e1, s2 + k * stepDir s2 e2))) := by
  unfold is_path_blocked
  rw [if_neg hN]
  by_cases hz : max (e1 - s1).natAbs (e2 - s2).natAbs = 0
  · have h1 : e1 = s1 := by
      have h := Nat.le_max_left (e1 - s1).natAbs (e2 - s2).natAbs
      omega
    have h2 : e2 = s2 := by
      have h := Nat.le_max_right (e1 - s1).natAbs (e2 - s2).natAbs
      omega
    subst h1
    subst h2
    simp [pathWalk, stepDir]
  · have hpos : 1 ≤ max (e1 - s1).natAbs (e2 - s2).natAbs := by omega
    have hspec := pathWalk_spec pieces s1 s2 (stepDir s1 e1) (stepDir s2 e2) e1 e2
      (max (e1 - s1).natAbs (e2 - s2).natAbs)
      (fun k hk1 hks => straight_reach_iff s1 s2 e1 e2 k hst hk1 hks hpos)
      1 (le_refl 1) hpos
      (max (e1 - s1).natAbs (e2 - s2).natAbs + 1) (by omega)
    have hone1 : s1 + ((1 : Nat) : Int) * stepDir s1 e1 = s1 + stepDir s1 e1 := by
      push_cast
      ring
    have hone2 : s2 + ((1 : Nat) : Int) * stepDir s2 e2 = s2 + stepDir s2 e2 := by
      push_cast
      ring
    rw [hone1, hone2] at hspec
    exact hspec

theorem nonstraight_never_reaches (s1 s2 e1 e2 : Int)
    (hst : ¬(e1 - s1 = 0 ∨ e2 - s2 = 0 ∨ (e1 - s1).natAbs = (e2 - s2).natAbs)) :
    ∀ k : Nat, (((s1 + (k + 1 : Nat) * stepDir s1 e1,
        s2 + (k + 1 : Nat) * stepDir s2 e2) : Cell) ≠ (e1, e2)) := by
  intro k h
  rw [Prod.mk.injEq, stepDir_reach, stepDir_reach] at h
  omega

theorem pathWalk_nil_none (rdir cdir e1 e2 : Int) :
    ∀ (fuel : Nat) (c1 c2 : Int),
      (∀ k : Nat, (((c1 + k * rdir, c2 + k * cdir) : Cell) ≠ (e1, e2))) →
      pathWalk [] rdir cdir (e1, e2) fuel (c1, c2) = none := by
  intro fuel
  induction fuel with
  | zero =>
    intro c1 c2 h
    rfl
  | succ f ih =>
    intro c1 c2 h
    have h0 : ((c1, c2) : Cell) ≠ (e1, e2) := by
      have hx := h 0
      simpa using hx
    simp only [pathWalk]
    rw [if_neg h0, if_neg (by simp [occupiedAt])]
    apply ih
    intro k hcontra
    apply h (k + 1)
    rw [← hcontra, Prod.mk.injEq]
    constructor <;> push_cast <;> ring

/-! ### C7 — path blocking scans exactly the strictly-between cells -/

/-- C7: for a knight the path check always passes regardless of occupancy;
for any other piece and a straight-line source/destination pair (same row,
same column, or exact diagonal), the walk of `Game._is_path_blocked`
terminates within `steps + 1` iterations and reports a block exactly when
one of the cells strictly between source and destination (the cells
`start + k * dir` for `k = 1 .. steps - 1`) is occupied by a live piece. -/
theorem path_blocked_scan_correct (pieces : List Piece) (start_pos end_pos : Cell)
    (piece : Piece) :
    (piece.piece_type = "N" →
      ∀ fuel, is_path_blocked pieces start_pos end_pos piece fuel = some false) ∧
    (piece.piece_type ≠ "N" →
      (end_pos.1 - start_pos.1 = 0 ∨ end_pos.2 - start_pos.2 = 0 ∨
        (end_pos.1 - start_pos.1).natAbs = (end_pos.2 - start_pos.2).natAbs) →
      is_path_blocked pieces start_pos end_pos piece
          (max (end_pos.1 - start_pos.1).natAbs (end_pos.2 - start_pos.2).natAbs + 1) =
        some ((List.range' 1
            (max (end_pos.1 - start_pos.1).natAbs (end_pos.2 - start_pos.2).natAbs - 1)).any
          (fun k => occupiedAt pieces
            (start_pos.1 + k * stepDir start_pos.1 end_pos.1,
             start_pos.2 + k * stepDir start_pos.2 end_pos.2)))) := by
  obtain ⟨s1, s2⟩ := start_pos
  obtain ⟨e1, e2⟩ := end_pos
  exact ⟨fun hN => path_blocked_knight_eq pieces (s1, s2) (e1, e2) piece hN,
    fun hN hst => path_blocked_straight_eq pieces s1 s2 e1 e2 piece hN hst⟩

/-- Witness for C7, scenario 1: rook from `(0, 0)` to `(0, 5)` with a piece
on `(0, 3)` — the scan reports a block. -/
theorem path_blocked_scan_correct_witness :
    is_path_blocked [blockerPiece] (0, 0) (0, 5) rookPiece 6 = some true := by
  have T := (path_blocked_scan_correct [blockerPiece] (0, 0) (0, 5) rookPiece).2
    (by decide) (by decide)
  exact T.trans (by decide)

/-! ### C9 — straight-or-diagonal displacement is what makes the walk total -/

/-- C9: the knight branch returns immediately for any fuel; a straight or
exactly diagonal displacement makes the walk terminate (within `steps + 1`
iterations, for every occupancy); for any other displacement of a non-knight
piece the unit-step walk never reaches the destination cell, and on an
unobstructed ray (no live pieces) the loop of `Game._is_path_blocked` never
exits — it consumes any amount of fuel — so straight-or-diagonal
displacement is a necessary precondition for the check's totality. -/
theorem path_walk_totality (pieces : List Piece) (start_pos end_pos : Cell)
    (piece : Piece) :
    (piece.piece_type = "N" →
      ∀ fuel, is_path_blocked pieces start_pos end_pos piece fuel = some false) ∧
    ((end_pos.1 - start_pos.1 = 0 ∨ end_pos.2 - start_pos.2 = 0 ∨
        (end_pos.1 - start_pos.1).natAbs = (end_pos.2 - start_pos.2).natAbs) →
      (is_path_blocked pieces start_pos end_pos piece
          (max (end_pos.1 - start_pos.1).natAbs (end_pos.2 - start_pos.2).natAbs + 1)).isSome
        = true) ∧
    (piece.piece_type ≠ "N" →
      ¬(end_pos.1 - start_pos.1 = 0 ∨ end_pos.2 - start_pos.2 = 0 ∨
        (end_pos.1 - start_pos.1).natAbs = (end_pos.2 - start_pos.2).natAbs) →
      (∀ k : Nat, ((start_pos.1 + (k + 1 : Nat) * stepDir start_pos.1 end_pos.1,
          start_pos.2 + (k + 1 : Nat) * stepDir start_pos.2 end_pos.2) : Cell) ≠ end_pos) ∧
      (∀ fuel, is_path_blocked [] start_pos end_pos piece fuel = none)) := by
  obtain ⟨s1, s2⟩ := start_pos
  obtain ⟨e1, e2⟩ := end_pos
  refine ⟨fun hN => path_blocked_knight_eq pieces (s1, s2) (e1, e2) piece hN,
    fun hst => ?_,
    fun hN hst => ⟨nonstraight_never_reaches s1 s2 e1 e2 hst, fun fuel => ?_⟩⟩
  · by_cases hN : piece.piece_type = "N"
    · rw [path_blocked_knight_eq pieces (s1, s2) (e1, e2) piece hN]
      rfl
    · rw [path_blocked_straight_eq pieces s1 s2 e1 e2 piece hN hst]
      rfl
  · unfold is_path_blocked
    rw [if_neg hN]
    dsimp only
    apply pathWalk_nil_none
    intro k hcontra
    apply nonstraight_never_reaches s1 s2 e1 e2 hst k
    rw [← hcontra, Prod.mk.injEq]
    constructor <;> push_cast <;> ring

/-- Witness for C9: a rook asked to walk the non-straight displacement
`(0, 0)` to `(2, 3)` on an empty board consumes 100 fuel without finishing. -/
theorem path_walk_totality_witness :
    is_path_blocked [] (0, 0) (2, 3) rookPiece 100 = none :=
  ((path_walk_totality [] (0, 0) (2, 3) rookPiece).2.2 (by decide) (by decide)).2 100

/-! ### Move-loader lemmas -/

theorem Moves_init_deltas (lines : List String) (dims : Int × Int) :
    (Moves.init lines dims).move_deltas =
      (lines.filterMap writtenNumbers?).map (fun ab => (ab.2, ab.1)) := by
  suffices aux : ∀ acc, (lines.foldl (fun acc raw =>
      match lineDelta? raw with
      | some d => acc ++ [d]
      | none => acc) acc) =
      acc ++ (lines.filterMap writtenNumbers?).map (fun ab => (ab.2, ab.1)) by
    simpa [Moves.init] using aux []
  induction lines with
  | nil =>
    intro acc
    simp
  | cons raw rest ih =>
    intro acc
    rw [List.foldl_cons]
    cases hw : writtenNumbers? raw with
    | none =>
      have hld : lineDelta? raw = none := by simp [lineDelta?, hw]
      simp only [hld]
      rw [ih]
      simp [List.filterMap_cons, hw]
    | some ab =>
      have hld : lineDelta? raw = some (ab.2, ab.1) := by simp [lineDelta?, hw]
      simp only [hld]
      rw [ih]
      simp [List.filterMap_cons, hw]

theorem get_moves_eq (m : Moves) (r c : Int) :
    m.get_moves r c =
      (m.move_deltas.map (fun d => (r + d.1, c + d.2))).filter
        (fun cell => decide (0 ≤ cell.1 ∧ cell.1 < m.board_height ∧
          0 ≤ cell.2 ∧ cell.2 < m.board_width)) := by
  suffices aux : ∀ (ds : List (Int × Int)) (acc : List (Int × Int)),
      (ds.foldl (fun acc d =>
        if 0 ≤ r + d.1 ∧ r + d.1 < m.board_height ∧ 0 ≤ c + d.2 ∧ c + d.2 < m.board_width then
          acc ++ [(r + d.1, c + d.2)]
        else acc) acc) =
      acc ++ (ds.map (fun d => (r + d.1, c + d.2))).filter
        (fun cell => decide (0 ≤ cell.1 ∧ cell.1 < m.board_height ∧
          0 ≤ cell.2 ∧ cell.2 < m.board_width)) by
    simpa [Moves.get_moves] using aux m.move_deltas []
  intro ds
  induction ds with
  | nil =>
    intro acc
    simp
  | cons d ds ih =>
    intro acc
    rw [List.foldl_cons]
    by_cases h : 0 ≤ r + d.1 ∧ r + d.1 < m.board_height ∧ 0 ≤ c + d.2 ∧ c + d.2 < m.board_width
    · rw [if_pos h, ih]
      simp [List.filter_cons, h]
    · rw [if_neg h, ih]
      simp [List.filter_cons, h]

theorem Moves_ext (m1 m2 : Moves) (h1 : m1.board_height = m2.board_height)
    (h2 : m1.board_width = m2.board_width) (h3 : m1.move_deltas = m2.move_deltas) :
    m1 = m2 := by
  cases m1
  cases m2
  simp_all

/-! ### C10 — move-rule parsing order, bounds clipping, and skip-on-error -/

/-- C10: a move-rule line "a,b" is read with the first number as the column
delta and the second as the row delta (Python `dc, dr = map(int, ...)`,
storing `(dr, dc)`), so `get_moves(r, c)` returns exactly the cells
`(r + b, c + a)` over all parsed lines that fall within the board bounds;
and a line that does not parse as two comma-separated integers contributes
nothing while loading continues with the remaining lines. -/
theorem move_loader_offsets :
    (∀ (lines : List String) (dims : Int × Int) (r c : Int),
      (Moves.init lines dims).get_moves r c =
        ((lines.filterMap writtenNumbers?).map (fun ab => (r + ab.2, c + ab.1))).filter
          (fun cell => decide (0 ≤ cell.1 ∧ cell.1 < dims.1 ∧
            0 ≤ cell.2 ∧ cell.2 < dims.2))) ∧
    (∀ (pre post : List String) (bad : String) (dims : Int × Int),
      writtenNumbers? bad = none →
      Moves.init (pre ++ bad :: post) dims = Moves.init (pre ++ post) dims) := by
  constructor
  · intro lines dims r c
    rw [get_moves_eq, Moves_init_deltas, List.map_map]
    rfl
  · intro pre post bad dims hbad
    refine Moves_ext _ _ rfl rfl ?_
    rw [Moves_init_deltas, Moves_init_deltas]
    simp [List.filterMap_append, List.filterMap_cons, hbad]

/-- Witness for C10: the unparseable line "x,y" is skipped without ending
the load, and from `(3, 3)` the two surviving lines "1,0" and "0,2:cap"
yield the cells `(3 + 0, 3 + 1)` and `(3 + 2, 3 + 0)`. -/
theorem move_loader_offsets_witness :
    Moves.init ["1,0", "x,y", "0,2:cap"] (8, 8) = Moves.init ["1,0", "0,2:cap"] (8, 8) ∧
    (Moves.init ["1,0", "x,y", "0,2:cap"] (8, 8)).get_moves 3 3 = [(3, 4), (5, 3)] := by
  constructor
  · exact move_loader_offsets.2 ["1,0"] ["0,2:cap"] "x,y" (8, 8) (by decide)
  · exact (move_loader_offsets.1 ["1,0", "x,y", "0,2:cap"] (8, 8) 3 3).trans (by decide)

end KungFuChess
